import Mathlib

set_option maxRecDepth 4000

/-!
Verification of the patch-based spectrogram inference engine of the
`vocal-remover` repository (`src/inference.py`, class `Separator`).

The embedding works over exact arithmetic:

* The time axis of every numpy array is modelled explicitly: a 3-dimensional
  array of shape `[channel, frequency, time]` is represented time-major as a
  `List` of columns, one column per time frame, each column holding the
  flattened `channel × frequency` entries.  All operations of the code that
  touch arrays act either elementwise or on the time axis, so this carries the
  complete dataflow of `Separator._separate`, `Separator.separate` and
  `Separator.separate_tta`.
* Finite float values are idealised as exact rationals; the non-finite float
  results (NaN/Inf) that can arise from the peak normalisation's division are
  modelled by `Option ℚ` with `none` standing for a non-finite value.
* The elementwise complex algebra of `_preprocess` / `_postprocess`
  (`np.abs`, `np.angle`, `np.exp(1j*phase)`) is embedded over `ℂ` in the
  `Cx` namespace, arrays being position-indexed functions.
* Python exceptions are modelled with `Except PyErr`; the interleaved
  sequence of progress-callback invocations and model calls performed by the
  batched driver is returned explicitly as a trace (`List Event`).
* The numpy object/aliasing semantics (which line writes into which array)
  is modelled separately in the `Hp` namespace by a straight-line heap
  program, used for the frame-effect property.

`lib/dataset.py` (function `make_padding`) belongs to the repository but is
not among the provided sources; it is modelled from the spec, as marked on
its doc comment.  Everything else is translated from `src/inference.py`.
-/

/-- Python exceptions that the modelled code can raise. -/
inductive PyErr where
  /-- The spec's `InvalidConfiguration` error of `compute_padding`
  (`roi_size <= 0`). -/
  | invalidConfiguration
  /-- `ValueError` raised by `np.concatenate` on an empty list of arrays
  (zero patches means the batch loop body never runs). -/
  | emptyConcat
  /-- `ValueError` raised by numpy broadcasting when two arrays of
  incompatible time-axis lengths are added. -/
  | broadcastMismatch
  /-- `ValueError` raised by `range(0, n, 0)` (batch size zero). -/
  | zeroStep
deriving DecidableEq

/-- Observable events of the batched inference driver, in program order:
the progress callback invocation (line 44, with the fraction `i / patches`
that the code formats as a percentage string) and the model call
`self.model.predict_mask(X_batch)` (line 48, recorded with the number of
patches in the submitted batch). -/
inductive Event where
  | callback (frac : ℚ)
  | modelCall (batchLen : ℕ)
deriving DecidableEq

/-- One time frame of a magnitude array: the flattened `channel × frequency`
entries, exact finite values. -/
abbrev MagCol := List ℚ

/-- A magnitude array `[channel, frequency, time]`, time-major. -/
abbrev MagT := List MagCol

/-- One time frame of the peak-normalised magnitude; `none` is a non-finite
float (NaN or Inf). -/
abbrev NormCol := List (Option ℚ)

/-- A normalised magnitude array (the model input), time-major. -/
abbrev NormT := List NormCol

/-- One time frame of a mask. -/
abbrev MaskCol := List ℚ

/-- A mask array, time-major. -/
abbrev MaskT := List MaskCol

/-- `xs[:, :, start:start+len]`: Python slicing on the time axis
(truncating, never failing). -/
def timeSlice (start len : ℕ) (xs : List α) : List α :=
  (xs.drop start).take len

/-- `patches = (X_mag_pad.shape[2] - 2 * self.offset) // roi_size`
(line 30).  Natural subtraction agrees with the Python code here: a
negative Python value would make `range(patches)` empty exactly like `0`. -/
def patch_count (frames offset roi_size : ℕ) : ℕ :=
  (frames - 2 * offset) / roi_size

/-- `X_dataset` (lines 29-36): patch `i` spans
`[i*roi_size, i*roi_size + cropsize)` of the padded magnitude. -/
def patchList (offset cropsize roi_size : ℕ) (X_mag_pad : NormT) : List NormT :=
  (List.range (patch_count X_mag_pad.length offset roi_size)).map fun i =>
    timeSlice (i * roi_size) cropsize X_mag_pad

/-- The events produced by one iteration of the batch loop (lines 42-52):
the callback fires first (lines 43-44), with `i/patches` where `i` is the
index of the first patch of the batch, then the model is called on the
batch. -/
def batchTrace (hasCallback : Bool) (patches i batchLen : ℕ) : List Event :=
  (if hasCallback then [Event.callback ((i : ℚ) / (patches : ℚ))] else [])
    ++ [Event.modelCall batchLen]

/-- The `Separator` object of `src/inference.py` (lines 17-26).  The torch
model is represented by its mask-prediction operation
`predict_mask : batch of patches → batch of per-patch masks`; `device` is
dropped (device placement has no observable effect in the embedding);
`stepCallback` is kept as its presence flag, since the code discards the
callback's return value. -/
structure Separator where
  predict_mask : List NormT → List MaskT
  offset : ℕ
  batchsize : ℕ
  cropsize : ℕ
  postprocess : Bool
  hasCallback : Bool

/-- `Separator._separate` (lines 28-56): build `X_dataset`, run the model
over consecutive batches of at most `batchsize` patches
(`range(0, patches, batchsize)`), concatenate each batch's per-patch
outputs on the time axis (line 51) and then all batches (line 54).
Returns the mask together with the trace of callback invocations and model
calls.  `np.concatenate` on the empty batch list raises `ValueError`; so
does a zero `range` step. -/
def Separator._separate (sep : Separator) (X_mag_pad : NormT) (roi_size : ℕ) :
    Except PyErr (MaskT × List Event) :=
  let patches := patch_count X_mag_pad.length sep.offset roi_size
  let X_dataset := patchList sep.offset sep.cropsize roi_size X_mag_pad
  if sep.batchsize = 0 then
    Except.error PyErr.zeroStep
  else if patches = 0 then
    Except.error PyErr.emptyConcat
  else
    let starts := (List.range ((patches + sep.batchsize - 1) / sep.batchsize)).map
      (· * sep.batchsize)
    let runs := starts.map fun i =>
      let X_batch := timeSlice i sep.batchsize X_dataset
      ((sep.predict_mask X_batch).flatten,
        batchTrace sep.hasCallback patches i X_batch.length)
    Except.ok ((runs.map Prod.fst).flatten, (runs.map Prod.snd).flatten)

/-- A zero time frame of the same `channel × frequency` shape as the frames
of `X` (the constant fill used by `np.pad(..., mode='constant')`). -/
def zeroColLike (X : MagT) : MagCol :=
  List.replicate (X.headD []).length 0

/-- `np.pad(X_mag, ((0, 0), (0, 0), (pad_l, pad_r)), mode='constant')`
(lines 78, 93, 100). -/
def padT (pad_l pad_r : ℕ) (X : MagT) : MagT :=
  List.replicate pad_l (zeroColLike X) ++ X ++ List.replicate pad_r (zeroColLike X)

/-- `X.max()`: the maximum entry of a magnitude array.  Magnitudes are
nonnegative, so folding with initial value `0` agrees with `np.max` on the
(always nonempty) arrays the code applies it to. -/
def amax (X : MagT) : ℚ :=
  (X.map fun c => c.foldr max 0).foldr max 0

/-- Float division `x / m` of a finite `x` by the array maximum `m ≥ 0`:
for `m = 0` numpy yields NaN (`0/0`) or Inf (`x/0`), i.e. a non-finite
value, modelled by `none`. -/
def fdiv (x m : ℚ) : Option ℚ :=
  if m = 0 then none else some (x / m)

/-- Lines 78-79 (and 93-94, 100-101): pad the magnitude, then divide the
padded array in place by its own maximum.  The result is the model input. -/
def padNorm (pad_l pad_r : ℕ) (X : MagT) : NormT :=
  let p := padT pad_l pad_r X
  p.map fun c => c.map fun x => fdiv x (amax p)

/-- Ceiling division `⌈a / b⌉` on naturals. -/
def ceil_div (a b : ℕ) : ℕ :=
  (a + b - 1) / b

/-- Modelled from the spec: `dataset.make_padding` (line 77) lives in
`lib/dataset.py`, which is not among the provided sources.  Spec §4.1:
`roi_size = cropsize - 2*offset`, failing with `InvalidConfiguration` when
`roi_size ≤ 0`; the padded total frame count is the smallest multiple of
`roi_size` that is `≥ n_frames`, plus `2*offset`; `pad_left = offset` and
`pad_right = padded_total - n_frames - offset`. -/
def make_padding (width cropsize offset : ℕ) : Except PyErr (ℕ × ℕ × ℕ) :=
  if cropsize ≤ 2 * offset then
    Except.error PyErr.invalidConfiguration
  else
    let roi_size := cropsize - 2 * offset
    let padded_total := roi_size * ceil_div width roi_size + 2 * offset
    Except.ok (offset, padded_total - width - offset, roi_size)

/-- The mask-producing part of `Separator.separate` (lines 73-82): compute
the padding for `n_frame = X_mag.shape[2]`, pad and peak-normalise the
magnitude, run the batched driver, and trim the mask to `n_frame` frames
(`mask[:, :, :n_frame]`).  The subsequent `_postprocess` application
(line 84) is elementwise complex algebra and is embedded in the `Cx`
namespace. -/
def Separator.separate_mask (sep : Separator) (X_mag : MagT) :
    Except PyErr (MaskT × List Event) :=
  let n_frame := X_mag.length
  match make_padding n_frame sep.cropsize sep.offset with
  | Except.error e => Except.error e
  | Except.ok (pad_l, pad_r, roi_size) =>
    match sep._separate (padNorm pad_l pad_r X_mag) roi_size with
    | Except.error e => Except.error e
    | Except.ok (mask, tr) => Except.ok (timeSlice 0 n_frame mask, tr)

/-- `(a + b) * 0.5` on two mask arrays (line 105), with numpy broadcasting
semantics on the time axis: equal lengths add elementwise, a length-1
operand broadcasts, anything else raises `ValueError`.  (The
channel/frequency shapes always agree in the modelled flows, so columns
are combined elementwise.) -/
def addHalf (a b : MaskT) : Except PyErr MaskT :=
  if a.length = b.length then
    Except.ok (List.zipWith (fun ca cb =>
      List.zipWith (fun x y => (x + y) * (1 / 2)) ca cb) a b)
  else if a.length = 1 then
    Except.ok (b.map fun cb =>
      List.zipWith (fun x y => (x + y) * (1 / 2)) (a.headD []) cb)
  else if b.length = 1 then
    Except.ok (a.map fun ca =>
      List.zipWith (fun x y => (x + y) * (1 / 2)) ca (b.headD []))
  else
    Except.error PyErr.broadcastMismatch

/-- The mask-producing part of `Separator.separate_tta` (lines 88-105):
pass 1 as in `separate`; pass 2 with both pads grown by `roi_size // 2`
on the freshly padded original magnitude; drop the first `roi_size // 2`
frames of the second mask (`mask_tta[:, :, roi_size // 2:]`), trim both
to `n_frame`, and average. -/
def Separator.separate_tta_mask (sep : Separator) (X_mag : MagT) :
    Except PyErr (MaskT × List Event) :=
  let n_frame := X_mag.length
  match make_padding n_frame sep.cropsize sep.offset with
  | Except.error e => Except.error e
  | Except.ok (pad_l, pad_r, roi_size) =>
    match sep._separate (padNorm pad_l pad_r X_mag) roi_size with
    | Except.error e => Except.error e
    | Except.ok (mask, tr1) =>
      match sep._separate
          (padNorm (pad_l + roi_size / 2) (pad_r + roi_size / 2) X_mag) roi_size with
      | Except.error e => Except.error e
      | Except.ok (mask_tta, tr2) =>
        match addHalf (timeSlice 0 n_frame mask)
            (timeSlice 0 n_frame (mask_tta.drop (roi_size / 2))) with
        | Except.error e => Except.error e
        | Except.ok m => Except.ok (m, tr1 ++ tr2)

/-- The trace of the batch loop in closed form: one callback invocation
(when a callback is installed) directly followed by one model call, per
batch `k`, the callback receiving `(k * batchsize) / patches` — the number
of patches already dispatched over the total patch count. -/
def driverTrace (hasCallback : Bool) (patches batchsize : ℕ) : List Event :=
  ((List.range ((patches + batchsize - 1) / batchsize)).map fun k =>
    batchTrace hasCallback patches (k * batchsize)
      (min batchsize (patches - k * batchsize))).flatten

namespace Cx

/-- A complex spectrogram `[channel, frequency, time]`, as a
position-indexed function (the elementwise operations of `_preprocess` and
`_postprocess` are shape-preserving, so positions can be left unbounded). -/
abbrev CArr : Type := ℕ → ℕ → ℕ → ℂ

/-- A real-valued array of the same indexing. -/
abbrev RArr : Type := ℕ → ℕ → ℕ → ℝ

/-- `Separator._preprocess` (lines 58-62): `X_mag = np.abs(X_spec)`,
`X_phase = np.angle(X_spec)`, elementwise, idealised over exact complex
numbers. -/
noncomputable def _preprocess (X_spec : CArr) : RArr × RArr :=
  (fun c f t => Complex.abs (X_spec c f t), fun c f t => (X_spec c f t).arg)

/-- `Separator._postprocess` (lines 64-71): optionally run the external
`spec_utils.merge_artifacts` transform (an opaque collaborator, passed in
as `merge_artifacts`), then
`y_spec = mask * X_mag * np.exp(1.j * X_phase)` and
`v_spec = (1 - mask) * X_mag * np.exp(1.j * X_phase)`. -/
noncomputable def _postprocess (postprocess : Bool) (merge_artifacts : RArr → RArr)
    (mask X_mag X_phase : RArr) : CArr × CArr :=
  let m := if postprocess then merge_artifacts mask else mask
  (fun c f t => (m c f t : ℂ) * (X_mag c f t : ℝ) * Complex.exp ((X_phase c f t : ℝ) * Complex.I),
   fun c f t => (1 - (m c f t : ℂ)) * (X_mag c f t : ℝ) * Complex.exp ((X_phase c f t : ℝ) * Complex.I))

end Cx

namespace Hp

/-- The array operations of `separate` / `separate_tta` with their element
arithmetic abstracted: for the frame-effect property only the heap
discipline (which line allocates a fresh array, which line writes into an
existing one) matters, and it is independent of the element values. -/
structure ArrayOps (A : Type) where
  /-- `np.abs` (line 59): allocates. -/
  absA : A → A
  /-- `np.angle` (line 60): allocates. -/
  angleA : A → A
  /-- `np.pad` with the pass-1 padding (lines 78, 93): allocates. -/
  pad1A : A → A
  /-- `np.pad` with the pass-2 padding (line 100): allocates. -/
  pad2A : A → A
  /-- `X_mag_pad / X_mag_pad.max()`, the value which `/=` (lines 79, 94,
  101) writes IN PLACE into its left operand's array. -/
  divMax : A → A
  /-- `self._separate(...)` followed by the trimming slice: produces a
  fresh mask from the normalised input (lines 81-82, 96, 103-104). -/
  inferA : A → A
  /-- `mask_tta[:, :, roi_size // 2:]` and the averaging of line 105. -/
  avgA : A → A → A
  /-- `mask * X_mag * np.exp(1.j * X_phase)` (line 68): allocates. -/
  mulMask : A → A → A → A
  /-- `(1 - mask) * X_mag * np.exp(1.j * X_phase)` (line 69): allocates. -/
  mulInv : A → A → A → A

/-- A numpy heap: array storage addressed by `ℕ`, with a bump allocator.
Addresses below `next` are the live arrays. -/
structure NpState (A : Type) where
  heap : ℕ → A
  next : ℕ

/-- Allocate a fresh array holding `v` (at address `s.next`). -/
def alloc (v : A) (s : NpState A) : NpState A :=
  ⟨fun i => if i = s.next then v else s.heap i, s.next + 1⟩

/-- Write `v` in place into the existing array at address `r`
(the semantics of `/=`). -/
def store (r : ℕ) (v : A) (s : NpState A) : NpState A :=
  ⟨fun i => if i = r then v else s.heap i, s.next⟩

/-- `Separator.separate` (lines 73-86) as a heap program, one step per
array operation of the source.  The input spectrogram lives at address
`xspec`.  Addresses: `X_mag = s0.next`, `X_phase = s0.next+1`,
`X_mag_pad = s0.next+2` (the sole in-place write target), `mask =
s0.next+3`, `y_spec = s0.next+4`, `v_spec = s0.next+5`.  Returns
`((y_spec, v_spec), final heap)`. -/
def separate_heap (ops : ArrayOps A) (xspec : ℕ) (s0 : NpState A) :
    (ℕ × ℕ) × NpState A :=
  let s1 := alloc (ops.absA (s0.heap xspec)) s0
  let s2 := alloc (ops.angleA (s1.heap xspec)) s1
  let s3 := alloc (ops.pad1A (s2.heap s0.next)) s2
  let s4 := store s2.next (ops.divMax (s3.heap s2.next)) s3
  let s5 := alloc (ops.inferA (s4.heap s2.next)) s4
  let s6 := alloc (ops.mulMask (s5.heap s4.next) (s5.heap s0.next) (s5.heap (s0.next + 1))) s5
  let s7 := alloc (ops.mulInv (s6.heap s4.next) (s6.heap s0.next) (s6.heap (s0.next + 1))) s6
  ((s5.next, s6.next), s7)

/-- `Separator.separate_tta` (lines 88-109) as a heap program.  Both
in-place divisions (lines 94 and 101) target the freshly padded arrays;
the pass-2 padding (line 100) re-reads the `X_mag` cell. -/
def separate_tta_heap (ops : ArrayOps A) (xspec : ℕ) (s0 : NpState A) :
    (ℕ × ℕ) × NpState A :=
  let s1 := alloc (ops.absA (s0.heap xspec)) s0
  let s2 := alloc (ops.angleA (s1.heap xspec)) s1
  let s3 := alloc (ops.pad1A (s2.heap s0.next)) s2
  let s4 := store s2.next (ops.divMax (s3.heap s2.next)) s3
  let s5 := alloc (ops.inferA (s4.heap s2.next)) s4
  let s6 := alloc (ops.pad2A (s5.heap s0.next)) s5
  let s7 := store s5.next (ops.divMax (s6.heap s5.next)) s6
  let s8 := alloc (ops.inferA (s7.heap s5.next)) s7
  let s9 := alloc (ops.avgA (s8.heap s4.next) (s8.heap s7.next)) s8
  let s10 := alloc (ops.mulMask (s9.heap s8.next) (s9.heap s0.next) (s9.heap (s0.next + 1))) s9
  let s11 := alloc (ops.mulInv (s10.heap s8.next) (s10.heap s0.next) (s10.heap (s0.next + 1))) s10
  ((s9.next, s10.next), s11)

end Hp

/-- A Separator around a pointwise mock model (the model interface of
spec §6: each patch's output depends on that patch alone), for concrete
instantiations. -/
def mockSep (batchsize cropsize offset : ℕ) (hasCb : Bool) (f : NormT → MaskT) : Separator :=
  ⟨fun bt => bt.map f, offset, batchsize, cropsize, false, hasCb⟩

/-- A mock per-patch model output: `roi_size` frames of `w` entries, all
equal to `m`. -/
def constF (w roi_size : ℕ) (m : ℚ) : NormT → MaskT :=
  fun _ => List.replicate roi_size (List.replicate w m)

/-- A 10-frame single-entry magnitude array of ones. -/
def X10 : MagT := List.replicate 10 [(1 : ℚ)]

/-- A 3-frame magnitude array of ones. -/
def X3 : MagT := List.replicate 3 [(1 : ℚ)]

/-- A 5-frame magnitude array of ones. -/
def X5 : MagT := List.replicate 5 [(1 : ℚ)]

/-- A 1000-frame magnitude array of ones (spec §8's TTA scenario). -/
def X1000 : MagT := List.replicate 1000 [(1 : ℚ)]

/-- A 5-frame normalised (already padded) model input. -/
def XpadC7 : NormT := List.replicate 5 [some (1 : ℚ)]

/-- Concrete array operations on `ℕ` cells, to instantiate the heap
model. -/
def natOps : Hp.ArrayOps ℕ :=
  ⟨Nat.succ, Nat.succ, Nat.succ, Nat.succ, Nat.succ, Nat.succ,
    Nat.add, fun a _ _ => a, fun a _ _ => a⟩

/-- A one-cell initial heap. -/
def s0nat : Hp.NpState ℕ := ⟨fun _ => 0, 1⟩

/-- Every entry of every time frame of a mask equals `m`. -/
def allVal (m : ℚ) (xs : MaskT) : Prop :=
  ∀ c ∈ xs, ∀ x ∈ c, x = m

theorem le_mul_ceil_div (a b : ℕ) (hb : 0 < b) : a ≤ b * ceil_div a b := by
  unfold ceil_div
  have h1 := Nat.div_add_mod (a + b - 1) b
  have h2 := Nat.mod_lt (a + b - 1) hb
  generalize hq : (a + b - 1) / b = q at *
  generalize hr : (a + b - 1) % b = r at *
  generalize hbq : b * q = t at *
  omega

theorem mul_ceil_div_lt (a b : ℕ) (hb : 0 < b) : b * ceil_div a b < a + b := by
  unfold ceil_div
  have h1 := Nat.div_mul_le_self (a + b - 1) b
  generalize hq : (a + b - 1) / b = q at *
  have h2 : b * q = q * b := Nat.mul_comm b q
  generalize hbq : b * q = t at *
  generalize hqb : q * b = u at *
  omega

theorem ceil_div_pos (a b : ℕ) (hb : 0 < b) (ha : 0 < a) : 0 < ceil_div a b := by
  unfold ceil_div
  have h := (Nat.le_div_iff_mul_le hb).mpr (by omega : 1 * b ≤ a + b - 1)
  omega

theorem ceil_div_succ (l b : ℕ) (hb : 0 < b) (hl : 0 < l) :
    ceil_div l b = ceil_div (l - b) b + 1 := by
  unfold ceil_div
  rcases Nat.le_total l b with h | h
  · have h0 : l - b = 0 := by omega
    rw [h0]
    have e1 : l + b - 1 = (l - 1) + b := by omega
    rw [e1, Nat.add_div_right _ hb]
    have e2 : (l - 1) / b = 0 := Nat.div_eq_of_lt (by omega)
    have e3 : (0 + b - 1) / b = 0 := Nat.div_eq_of_lt (by omega)
    omega
  · have e1 : l + b - 1 = ((l - b) + b - 1) + b := by omega
    rw [e1, Nat.add_div_right _ hb]

theorem chunks_flatten {α : Type} (b : ℕ) (hb : 0 < b) :
    ∀ (n : ℕ) (l : List α), l.length ≤ n →
      ((List.range (ceil_div l.length b)).map fun k => timeSlice (k * b) b l).flatten = l := by
  intro n
  have hzero : ceil_div 0 b = 0 := by
    unfold ceil_div; exact Nat.div_eq_of_lt (by omega)
  induction n with
  | zero =>
    intro l hl
    have h0 : l = [] := List.length_eq_zero.mp (Nat.le_zero.mp hl)
    subst h0
    simp [hzero]
  | succ n ih =>
    intro l hl
    rcases l with _ | ⟨x, xs⟩
    · simp [hzero]
    · have hlen : 0 < (x :: xs).length := by simp
      rw [ceil_div_succ _ _ hb hlen, List.range_succ_eq_map, List.map_cons, List.map_map,
        List.flatten_cons]
      have hfirst : timeSlice (0 * b) b (x :: xs) = (x :: xs).take b := by
        simp [timeSlice]
      have hstep : ∀ k : ℕ,
          ((fun k => timeSlice (k * b) b (x :: xs)) ∘ Nat.succ) k
            = timeSlice (k * b) b ((x :: xs).drop b) := by
        intro k
        simp only [Function.comp_apply, timeSlice, List.drop_drop]
        rw [Nat.succ_mul, Nat.add_comm (k * b) b]
      rw [hfirst, List.map_congr_left fun k _ => hstep k]
      have hdlen : ((x :: xs).drop b).length = (x :: xs).length - b := List.length_drop b _
      have hrest : ((List.range (ceil_div ((x :: xs).length - b) b)).map
          fun k => timeSlice (k * b) b ((x :: xs).drop b)).flatten = (x :: xs).drop b := by
        rw [← hdlen]
        refine ih ((x :: xs).drop b) ?_
        simp only [List.length_drop, List.length_cons] at hl ⊢
        omega
      rw [hrest, List.take_append_drop]

theorem flatten_map_flatten {α β : Type} (f : α → List β) :
    ∀ cs : List (List α),
      (cs.map fun c => (c.map f).flatten).flatten = ((cs.flatten).map f).flatten := by
  intro cs
  induction cs with
  | nil => simp
  | cons c cs ih => simp [ih]

theorem flatten_map_length {α β : Type} (f : α → List β) (r : ℕ)
    (hf : ∀ p, (f p).length = r) :
    ∀ l : List α, ((l.map f).flatten).length = l.length * r := by
  intro l
  induction l with
  | nil => simp
  | cons p l ih =>
    simp only [List.map_cons, List.flatten_cons, List.length_append, ih, hf, List.length_cons]
    ring

theorem patchList_length (o c r : ℕ) (X : NormT) :
    (patchList o c r X).length = patch_count X.length o r := by
  simp [patchList]

/-- The batched driver in closed form: for a positive batch size, a
pointwise model (each patch's output is a function of that patch alone, as
the model interface specifies) and at least one patch, `_separate`
succeeds, its mask is the concatenation in patch order of the per-patch
model outputs, and its trace is `driverTrace`. -/
theorem _separate_eq (sep : Separator) (X : NormT) (roi_size : ℕ)
    (f : NormT → MaskT)
    (hb : 0 < sep.batchsize)
    (hf : ∀ bt, sep.predict_mask bt = bt.map f)
    (hp : 0 < patch_count X.length sep.offset roi_size) :
    sep._separate X roi_size =
      Except.ok (((patchList sep.offset sep.cropsize roi_size X).map f).flatten,
        driverTrace sep.hasCallback (patch_count X.length sep.offset roi_size) sep.batchsize) := by
  simp only [Separator._separate]
  rw [if_neg (by omega), if_neg (by omega)]
  simp only [Except.ok.injEq, Prod.mk.injEq]
  constructor
  · simp only [List.map_map, Function.comp_def, hf]
    have h1 : ((List.range ((patch_count X.length sep.offset roi_size + sep.batchsize - 1) /
        sep.batchsize)).map fun k => (((timeSlice (k * sep.batchsize) sep.batchsize
          (patchList sep.offset sep.cropsize roi_size X)).map f).flatten)).flatten
        = (((List.range (ceil_div (patchList sep.offset sep.cropsize roi_size X).length
            sep.batchsize)).map fun k => timeSlice (k * sep.batchsize) sep.batchsize
              (patchList sep.offset sep.cropsize roi_size X)).map
                fun c => (c.map f).flatten).flatten := by
      rw [List.map_map]
      simp only [Function.comp_def, patchList_length, ceil_div]
    rw [h1, flatten_map_flatten,
      chunks_flatten sep.batchsize hb (patchList sep.offset sep.cropsize roi_size X).length _
        le_rfl]
  · simp only [List.map_map, Function.comp_def, driverTrace, ceil_div]
    refine congrArg List.flatten (List.map_congr_left fun k _ => ?_)
    have h2 : (timeSlice (k * sep.batchsize) sep.batchsize
        (patchList sep.offset sep.cropsize roi_size X)).length
        = min sep.batchsize (patch_count X.length sep.offset roi_size - k * sep.batchsize) := by
      simp [timeSlice, patchList_length]
    rw [h2]

theorem make_padding_eq (n c o : ℕ) (h : 2 * o < c) :
    make_padding n c o =
      Except.ok (o, (c - 2 * o) * ceil_div n (c - 2 * o) + o - n, c - 2 * o) := by
  unfold make_padding
  rw [if_neg (by omega)]
  simp only [Except.ok.injEq, Prod.mk.injEq]
  refine ⟨trivial, ?_, trivial⟩
  generalize (c - 2 * o) * ceil_div n (c - 2 * o) = A
  omega

theorem padNorm_length (pl pr : ℕ) (X : MagT) :
    (padNorm pl pr X).length = pl + X.length + pr := by
  simp only [padNorm, padT, List.length_map, List.length_append, List.length_replicate]

theorem pass1_patches (o c n : ℕ) (h : 2 * o < c) :
    patch_count (o + n + ((c - 2 * o) * ceil_div n (c - 2 * o) + o - n)) o (c - 2 * o)
      = ceil_div n (c - 2 * o) := by
  have hroi : 0 < c - 2 * o := by omega
  have hle := le_mul_ceil_div n (c - 2 * o) hroi
  unfold patch_count
  have e1 : o + n + ((c - 2 * o) * ceil_div n (c - 2 * o) + o - n) - 2 * o
      = (c - 2 * o) * ceil_div n (c - 2 * o) := by
    generalize (c - 2 * o) * ceil_div n (c - 2 * o) = A at *
    omega
  rw [e1, Nat.mul_div_cancel_left _ hroi]

theorem pass2_patches (o c n : ℕ) (h : 2 * o < c)
    (heven : (c - 2 * o) % 2 = 0) :
    patch_count ((o + (c - 2 * o) / 2) + n
        + (((c - 2 * o) * ceil_div n (c - 2 * o) + o - n) + (c - 2 * o) / 2)) o (c - 2 * o)
      = ceil_div n (c - 2 * o) + 1 := by
  have hroi : 0 < c - 2 * o := by omega
  have hle := le_mul_ceil_div n (c - 2 * o) hroi
  have e2 : (c - 2 * o) * (ceil_div n (c - 2 * o) + 1)
      = (c - 2 * o) * ceil_div n (c - 2 * o) + (c - 2 * o) := by ring
  unfold patch_count
  have e1 : (o + (c - 2 * o) / 2) + n
        + (((c - 2 * o) * ceil_div n (c - 2 * o) + o - n) + (c - 2 * o) / 2) - 2 * o
      = (c - 2 * o) * ceil_div n (c - 2 * o) + (c - 2 * o) := by
    generalize (c - 2 * o) * ceil_div n (c - 2 * o) = A at *
    omega
  rw [e1, ← e2, Nat.mul_div_cancel_left _ hroi]

/-- `separate` in closed form (for a valid configuration, a nonempty input
and a pointwise model): the trimmed concatenation of per-patch outputs on
the pass-1 padded/normalised magnitude, with `⌈n/roi⌉` patches. -/
theorem separate_mask_eq (sep : Separator) (X : MagT) (f : NormT → MaskT)
    (hb : 0 < sep.batchsize)
    (hf : ∀ bt, sep.predict_mask bt = bt.map f)
    (hcfg : 2 * sep.offset < sep.cropsize)
    (hn : 0 < X.length) :
    sep.separate_mask X =
      Except.ok (timeSlice 0 X.length
          (((patchList sep.offset sep.cropsize (sep.cropsize - 2 * sep.offset)
              (padNorm sep.offset
                ((sep.cropsize - 2 * sep.offset)
                    * ceil_div X.length (sep.cropsize - 2 * sep.offset)
                  + sep.offset - X.length) X)).map f).flatten),
        driverTrace sep.hasCallback (ceil_div X.length (sep.cropsize - 2 * sep.offset))
          sep.batchsize) := by
  have hroi : 0 < sep.cropsize - 2 * sep.offset := by omega
  have hpc : patch_count
      (padNorm sep.offset
        ((sep.cropsize - 2 * sep.offset) * ceil_div X.length (sep.cropsize - 2 * sep.offset)
          + sep.offset - X.length) X).length sep.offset (sep.cropsize - 2 * sep.offset)
      = ceil_div X.length (sep.cropsize - 2 * sep.offset) := by
    rw [padNorm_length]
    exact pass1_patches sep.offset sep.cropsize X.length hcfg
  have hppos : 0 < patch_count
      (padNorm sep.offset
        ((sep.cropsize - 2 * sep.offset) * ceil_div X.length (sep.cropsize - 2 * sep.offset)
          + sep.offset - X.length) X).length sep.offset (sep.cropsize - 2 * sep.offset) := by
    rw [hpc]; exact ceil_div_pos _ _ hroi hn
  simp only [Separator.separate_mask, make_padding_eq X.length sep.cropsize sep.offset hcfg]
  rw [_separate_eq sep _ _ f hb hf hppos, hpc]

/-- `separate_tta` in closed form (valid configuration, nonempty input,
pointwise model whose per-patch output is `roi_size` frames long, and even
`roi_size`): pass 1 trimmed to `n`, pass 2 on the half-window-shifted
padding with its first `roi_size/2` frames dropped and trimmed to `n`,
averaged elementwise. -/
theorem separate_tta_mask_eq (sep : Separator) (X : MagT) (f : NormT → MaskT)
    (hb : 0 < sep.batchsize)
    (hf : ∀ bt, sep.predict_mask bt = bt.map f)
    (hlen : ∀ p, (f p).length = sep.cropsize - 2 * sep.offset)
    (hcfg : 2 * sep.offset < sep.cropsize)
    (heven : (sep.cropsize - 2 * sep.offset) % 2 = 0)
    (hn : 0 < X.length) :
    sep.separate_tta_mask X =
      Except.ok (List.zipWith (fun ca cb =>
          List.zipWith (fun x y => (x + y) * (1 / 2)) ca cb)
        (timeSlice 0 X.length
          (((patchList sep.offset sep.cropsize (sep.cropsize - 2 * sep.offset)
              (padNorm sep.offset
                ((sep.cropsize - 2 * sep.offset)
                    * ceil_div X.length (sep.cropsize - 2 * sep.offset)
                  + sep.offset - X.length) X)).map f).flatten))
        (timeSlice 0 X.length
          ((((patchList sep.offset sep.cropsize (sep.cropsize - 2 * sep.offset)
              (padNorm (sep.offset + (sep.cropsize - 2 * sep.offset) / 2)
                (((sep.cropsize - 2 * sep.offset)
                    * ceil_div X.length (sep.cropsize - 2 * sep.offset)
                  + sep.offset - X.length) + (sep.cropsize - 2 * sep.offset) / 2)
                X)).map f).flatten).drop ((sep.cropsize - 2 * sep.offset) / 2))),
        driverTrace sep.hasCallback (ceil_div X.length (sep.cropsize - 2 * sep.offset))
            sep.batchsize
          ++ driverTrace sep.hasCallback
            (ceil_div X.length (sep.cropsize - 2 * sep.offset) + 1) sep.batchsize) := by
  have hroi : 0 < sep.cropsize - 2 * sep.offset := by omega
  have hq := le_mul_ceil_div X.length (sep.cropsize - 2 * sep.offset) hroi
  have hpc1 : patch_count
      (padNorm sep.offset
        ((sep.cropsize - 2 * sep.offset) * ceil_div X.length (sep.cropsize - 2 * sep.offset)
          + sep.offset - X.length) X).length sep.offset (sep.cropsize - 2 * sep.offset)
      = ceil_div X.length (sep.cropsize - 2 * sep.offset) := by
    rw [padNorm_length]
    exact pass1_patches sep.offset sep.cropsize X.length hcfg
  have hppos1 : 0 < patch_count
      (padNorm sep.offset
        ((sep.cropsize - 2 * sep.offset) * ceil_div X.length (sep.cropsize - 2 * sep.offset)
          + sep.offset - X.length) X).length sep.offset (sep.cropsize - 2 * sep.offset) := by
    rw [hpc1]; exact ceil_div_pos _ _ hroi hn
  have hpc2 : patch_count
      (padNorm (sep.offset + (sep.cropsize - 2 * sep.offset) / 2)
        (((sep.cropsize - 2 * sep.offset) * ceil_div X.length (sep.cropsize - 2 * sep.offset)
          + sep.offset - X.length) + (sep.cropsize - 2 * sep.offset) / 2)
        X).length sep.offset (sep.cropsize - 2 * sep.offset)
      = ceil_div X.length (sep.cropsize - 2 * sep.offset) + 1 := by
    rw [padNorm_length]
    exact pass2_patches sep.offset sep.cropsize X.length hcfg heven
  have hppos2 : 0 < patch_count
      (padNorm (sep.offset + (sep.cropsize - 2 * sep.offset) / 2)
        (((sep.cropsize - 2 * sep.offset) * ceil_div X.length (sep.cropsize - 2 * sep.offset)
          + sep.offset - X.length) + (sep.cropsize - 2 * sep.offset) / 2)
        X).length sep.offset (sep.cropsize - 2 * sep.offset) := by
    rw [hpc2]; omega
  have hlen1 : (timeSlice 0 X.length
      (((patchList sep.offset sep.cropsize (sep.cropsize - 2 * sep.offset)
          (padNorm sep.offset
            ((sep.cropsize - 2 * sep.offset)
                * ceil_div X.length (sep.cropsize - 2 * sep.offset)
              + sep.offset - X.length) X)).map f).flatten)).length = X.length := by
    simp only [timeSlice, List.drop_zero, List.length_take,
      flatten_map_length f (sep.cropsize - 2 * sep.offset) hlen, patchList_length, hpc1]
    rw [Nat.mul_comm (ceil_div X.length (sep.cropsize - 2 * sep.offset))
      (sep.cropsize - 2 * sep.offset)]
    generalize (sep.cropsize - 2 * sep.offset)
        * ceil_div X.length (sep.cropsize - 2 * sep.offset) = A at hq ⊢
    omega
  have hlen2 : (timeSlice 0 X.length
      ((((patchList sep.offset sep.cropsize (sep.cropsize - 2 * sep.offset)
          (padNorm (sep.offset + (sep.cropsize - 2 * sep.offset) / 2)
            (((sep.cropsize - 2 * sep.offset)
                * ceil_div X.length (sep.cropsize - 2 * sep.offset)
              + sep.offset - X.length) + (sep.cropsize - 2 * sep.offset) / 2)
            X)).map f).flatten).drop ((sep.cropsize - 2 * sep.offset) / 2))).length
      = X.length := by
    simp only [timeSlice, List.drop_zero, List.length_take, List.length_drop,
      flatten_map_length f (sep.cropsize - 2 * sep.offset) hlen, patchList_length, hpc2]
    have e : (ceil_div X.length (sep.cropsize - 2 * sep.offset) + 1)
          * (sep.cropsize - 2 * sep.offset)
        = (sep.cropsize - 2 * sep.offset)
            * ceil_div X.length (sep.cropsize - 2 * sep.offset)
          + (sep.cropsize - 2 * sep.offset) := by ring
    rw [e]
    generalize (sep.cropsize - 2 * sep.offset)
        * ceil_div X.length (sep.cropsize - 2 * sep.offset) = A at hq ⊢
    omega
  simp only [Separator.separate_tta_mask, make_padding_eq X.length sep.cropsize sep.offset hcfg]
  rw [_separate_eq sep _ _ f hb hf hppos1, _separate_eq sep _ _ f hb hf hppos2, hpc1, hpc2]
  simp only [addHalf, hlen1, hlen2, if_true]

theorem allVal_flatten_map {α : Type} (f : α → MaskT) (m : ℚ) (l : List α)
    (hf : ∀ p, allVal m (f p)) : allVal m ((l.map f).flatten) := by
  intro c hc x hx
  rcases List.mem_flatten.mp hc with ⟨t, ht, hct⟩
  rcases List.mem_map.mp ht with ⟨p, _, rfl⟩
  exact hf p c hct x hx

theorem allVal_take (m : ℚ) (n : ℕ) (xs : MaskT) (h : allVal m xs) :
    allVal m (xs.take n) :=
  fun c hc => h c (List.take_subset n xs hc)

theorem allVal_drop (m : ℚ) (n : ℕ) (xs : MaskT) (h : allVal m xs) :
    allVal m (xs.drop n) :=
  fun c hc => h c (List.drop_subset n xs hc)

theorem colAvg_mem (m : ℚ) : ∀ ca cb : MaskCol, (∀ x ∈ ca, x = m) → (∀ x ∈ cb, x = m) →
    ∀ x ∈ List.zipWith (fun x y => (x + y) * (1 / 2)) ca cb, x = m := by
  intro ca
  induction ca with
  | nil => intro cb _ _ x hx; simp at hx
  | cons aq ca ih =>
    intro cb hA hB x hx
    cases cb with
    | nil => simp at hx
    | cons bq cb =>
      simp only [List.zipWith_cons_cons, List.mem_cons] at hx
      rcases hx with h | h
      · rw [h, hA aq (by simp), hB bq (by simp)]; ring
      · exact ih cb (fun y hy => hA y (List.mem_cons_of_mem _ hy))
          (fun y hy => hB y (List.mem_cons_of_mem _ hy)) x h

theorem allVal_avg (m : ℚ) : ∀ a b : MaskT, allVal m a → allVal m b →
    allVal m (List.zipWith (fun ca cb =>
      List.zipWith (fun x y => (x + y) * (1 / 2)) ca cb) a b) := by
  intro a
  induction a with
  | nil => intro b _ _ c hc; simp at hc
  | cons ca a ih =>
    intro b hA hB c hc
    cases b with
    | nil => simp at hc
    | cons cb b =>
      simp only [List.zipWith_cons_cons, List.mem_cons] at hc
      rcases hc with h | h
      · subst h
        exact colAvg_mem m ca cb (hA ca (by simp)) (hB cb (by simp))
      · exact ih b (fun c' hc' => hA c' (List.mem_cons_of_mem _ hc'))
          (fun c' hc' => hB c' (List.mem_cons_of_mem _ hc')) c h

/-- Length of the trimmed pass-1 mask: exactly the input frame count. -/
theorem pass1_mask_length (sep : Separator) (X : MagT) (f : NormT → MaskT)
    (hlen : ∀ p, (f p).length = sep.cropsize - 2 * sep.offset)
    (hcfg : 2 * sep.offset < sep.cropsize) :
    (timeSlice 0 X.length
      (((patchList sep.offset sep.cropsize (sep.cropsize - 2 * sep.offset)
          (padNorm sep.offset
            ((sep.cropsize - 2 * sep.offset)
                * ceil_div X.length (sep.cropsize - 2 * sep.offset)
              + sep.offset - X.length) X)).map f).flatten)).length = X.length := by
  have hroi : 0 < sep.cropsize - 2 * sep.offset := by omega
  have hq := le_mul_ceil_div X.length (sep.cropsize - 2 * sep.offset) hroi
  have hpc1 : patch_count
      (padNorm sep.offset
        ((sep.cropsize - 2 * sep.offset) * ceil_div X.length (sep.cropsize - 2 * sep.offset)
          + sep.offset - X.length) X).length sep.offset (sep.cropsize - 2 * sep.offset)
      = ceil_div X.length (sep.cropsize - 2 * sep.offset) := by
    rw [padNorm_length]
    exact pass1_patches sep.offset sep.cropsize X.length hcfg
  simp only [timeSlice, List.drop_zero, List.length_take,
    flatten_map_length f (sep.cropsize - 2 * sep.offset) hlen, patchList_length, hpc1]
  rw [Nat.mul_comm (ceil_div X.length (sep.cropsize - 2 * sep.offset))
    (sep.cropsize - 2 * sep.offset)]
  generalize (sep.cropsize - 2 * sep.offset)
      * ceil_div X.length (sep.cropsize - 2 * sep.offset) = A at hq ⊢
  omega

/-- Length of the trimmed, half-window-dropped pass-2 mask: also the input
frame count, provided `roi_size` is even. -/
theorem pass2_mask_length (sep : Separator) (X : MagT) (f : NormT → MaskT)
    (hlen : ∀ p, (f p).length = sep.cropsize - 2 * sep.offset)
    (hcfg : 2 * sep.offset < sep.cropsize)
    (heven : (sep.cropsize - 2 * sep.offset) % 2 = 0) :
    (timeSlice 0 X.length
      ((((patchList sep.offset sep.cropsize (sep.cropsize - 2 * sep.offset)
          (padNorm (sep.offset + (sep.cropsize - 2 * sep.offset) / 2)
            (((sep.cropsize - 2 * sep.offset)
                * ceil_div X.length (sep.cropsize - 2 * sep.offset)
              + sep.offset - X.length) + (sep.cropsize - 2 * sep.offset) / 2)
            X)).map f).flatten).drop ((sep.cropsize - 2 * sep.offset) / 2))).length
      = X.length := by
  have hroi : 0 < sep.cropsize - 2 * sep.offset := by omega
  have hq := le_mul_ceil_div X.length (sep.cropsize - 2 * sep.offset) hroi
  have hpc2 : patch_count
      (padNorm (sep.offset + (sep.cropsize - 2 * sep.offset) / 2)
        (((sep.cropsize - 2 * sep.offset) * ceil_div X.length (sep.cropsize - 2 * sep.offset)
          + sep.offset - X.length) + (sep.cropsize - 2 * sep.offset) / 2)
        X).length sep.offset (sep.cropsize - 2 * sep.offset)
      = ceil_div X.length (sep.cropsize - 2 * sep.offset) + 1 := by
    rw [padNorm_length]
    exact pass2_patches sep.offset sep.cropsize X.length hcfg heven
  simp only [timeSlice, List.drop_zero, List.length_take, List.length_drop,
    flatten_map_length f (sep.cropsize - 2 * sep.offset) hlen, patchList_length, hpc2]
  have e : (ceil_div X.length (sep.cropsize - 2 * sep.offset) + 1)
        * (sep.cropsize - 2 * sep.offset)
      = (sep.cropsize - 2 * sep.offset)
          * ceil_div X.length (sep.cropsize - 2 * sep.offset)
        + (sep.cropsize - 2 * sep.offset) := by ring
  rw [e]
  generalize (sep.cropsize - 2 * sep.offset)
      * ceil_div X.length (sep.cropsize - 2 * sep.offset) = A at hq ⊢
  omega

/-- C8: for every complex spectrogram, the preprocessor's outputs satisfy
the round-trip `magnitude * exp(i*phase) = original` at every position:
magnitude is the elementwise absolute value and phase the elementwise
complex argument (and `_preprocess` is total: it has no error
conditions). -/
theorem preprocess_roundtrip (X : Cx.CArr) (c f t : ℕ) :
    ((Cx._preprocess X).1 c f t : ℂ)
        * Complex.exp (((Cx._preprocess X).2 c f t : ℝ) * Complex.I)
      = X c f t := by
  simp only [Cx._preprocess]
  exact Complex.abs_mul_exp_arg_mul_I (X c f t)

/-- C2: with `postprocess` (merge_artifacts) disabled, the two outputs of
`_postprocess` applied to the preprocessor's magnitude and phase sum
elementwise to the original complex spectrogram, for every mask and every
merge collaborator. -/
theorem postprocess_energy_conservation (merge_artifacts : Cx.RArr → Cx.RArr)
    (mask : Cx.RArr) (X : Cx.CArr) (c f t : ℕ) :
    (Cx._postprocess false merge_artifacts mask
          (Cx._preprocess X).1 (Cx._preprocess X).2).1 c f t
      + (Cx._postprocess false merge_artifacts mask
          (Cx._preprocess X).1 (Cx._preprocess X).2).2 c f t
      = X c f t := by
  have h := Complex.abs_mul_exp_arg_mul_I (X c f t)
  simp only [Cx._postprocess, Cx._preprocess, Bool.false_eq_true, if_false]
  linear_combination h

/-- C9: `make_padding` (spec-modelled) returns `pad_left = offset` and
`roi_size = cropsize - 2*offset` whenever `cropsize > 2*offset`, and the
padded total `n + pad_l + pad_r` is `2*offset` plus the smallest multiple
of `roi_size` that is `≥ n` (a multiple `≥ n` and `< n + roi_size`); as a
Lean function it is pure and deterministic by construction. -/
theorem make_padding_contract (n c o : ℕ) (h : 2 * o < c) :
    ∃ pr k, make_padding n c o = Except.ok (o, pr, c - 2 * o)
      ∧ n + o + pr = (c - 2 * o) * k + 2 * o
      ∧ n ≤ (c - 2 * o) * k
      ∧ (c - 2 * o) * k < n + (c - 2 * o) := by
  refine ⟨(c - 2 * o) * ceil_div n (c - 2 * o) + o - n, ceil_div n (c - 2 * o),
    make_padding_eq n c o h, ?_, le_mul_ceil_div n _ (by omega),
    mul_ceil_div_lt n _ (by omega)⟩
  have hle := le_mul_ceil_div n (c - 2 * o) (by omega)
  generalize (c - 2 * o) * ceil_div n (c - 2 * o) = A at *
  omega

/-- Witness for C9 at the concrete configuration `n_frames = 10`,
`cropsize = 256`, `offset = 64`. -/
theorem make_padding_contract_witness :
    2 * 64 < 256 ∧ ∃ pr k, make_padding 10 256 64 = Except.ok (64, pr, 256 - 2 * 64)
      ∧ 10 + 64 + pr = (256 - 2 * 64) * k + 2 * 64
      ∧ 10 ≤ (256 - 2 * 64) * k
      ∧ (256 - 2 * 64) * k < 10 + (256 - 2 * 64) :=
  ⟨by decide, make_padding_contract 10 256 64 (by decide)⟩

/-- C5: the concatenated mask is independent of the batch size: for any
two positive batch sizes and a pointwise (per-patch, deterministic) model,
the driver produces identical masks (and identical errors on degenerate
inputs); batching only changes how the patches are grouped into model
calls. -/
theorem batchsize_invariance (predict : List NormT → List MaskT)
    (offset b1 b2 cropsize : ℕ) (pp cb : Bool) (f : NormT → MaskT)
    (h1 : 0 < b1) (h2 : 0 < b2)
    (hf : ∀ bt, predict bt = bt.map f)
    (X : NormT) (roi_size : ℕ) :
    Except.map Prod.fst
        ((Separator.mk predict offset b1 cropsize pp cb)._separate X roi_size)
      = Except.map Prod.fst
        ((Separator.mk predict offset b2 cropsize pp cb)._separate X roi_size) := by
  by_cases hp : patch_count X.length offset roi_size = 0
  · simp only [Separator._separate]
    rw [if_neg (by omega : ¬ b1 = 0), if_neg (by omega : ¬ b2 = 0), if_pos hp, if_pos hp]
  · rw [_separate_eq (Separator.mk predict offset b1 cropsize pp cb) X roi_size f h1 hf
        (Nat.pos_of_ne_zero hp),
      _separate_eq (Separator.mk predict offset b2 cropsize pp cb) X roi_size f h2 hf
        (Nat.pos_of_ne_zero hp)]
    rfl

/-- Witness for C5: batch sizes 1 and 2 on a 5-frame padded input. -/
theorem batchsize_invariance_witness :
    (0 : ℕ) < 1 ∧ (0 : ℕ) < 2
      ∧ Except.map Prod.fst
          ((Separator.mk (fun bt => bt.map (constF 1 1 (1 / 2))) 0 1 1 false false)._separate
            XpadC7 1)
        = Except.map Prod.fst
          ((Separator.mk (fun bt => bt.map (constF 1 1 (1 / 2))) 0 2 1 false false)._separate
            XpadC7 1) :=
  ⟨by decide, by decide,
    batchsize_invariance (fun bt => bt.map (constF 1 1 (1 / 2))) 0 1 2 1 false false
      (constF 1 1 (1 / 2)) (by decide) (by decide) (fun _ => rfl) XpadC7 1⟩

/-- C7 (amended): the driver invokes the callback once per batch
IMMEDIATELY BEFORE that batch's model call (not after), passing the
fraction `i / patches` where `i` is the index of the first patch of the
batch — i.e. patches dispatched so far over the TOTAL PATCH COUNT, not
batches dispatched over total batches; the callback has no effect on
control flow and the mask output is identical with and without one. -/
theorem callback_trace_spec (predict : List NormT → List MaskT)
    (offset b cropsize : ℕ) (pp : Bool) (f : NormT → MaskT)
    (hb : 0 < b) (hf : ∀ bt, predict bt = bt.map f)
    (X : NormT) (roi_size : ℕ)
    (hp : 0 < patch_count X.length offset roi_size) :
    (Separator.mk predict offset b cropsize pp true)._separate X roi_size
        = Except.ok (((patchList offset cropsize roi_size X).map f).flatten,
            driverTrace true (patch_count X.length offset roi_size) b)
      ∧ (Separator.mk predict offset b cropsize pp false)._separate X roi_size
        = Except.ok (((patchList offset cropsize roi_size X).map f).flatten,
            driverTrace false (patch_count X.length offset roi_size) b) :=
  ⟨_separate_eq (Separator.mk predict offset b cropsize pp true) X roi_size f hb hf hp,
    _separate_eq (Separator.mk predict offset b cropsize pp false) X roi_size f hb hf hp⟩

/-- Witness for C7's amended trace statement: 5 patches, batch size 2. -/
theorem callback_trace_spec_witness :
    (0 : ℕ) < 2 ∧ 0 < patch_count XpadC7.length 0 1
      ∧ ((Separator.mk (fun bt => bt.map (constF 1 1 (1 / 2))) 0 2 1 false true)._separate
            XpadC7 1
          = Except.ok (((patchList 0 1 1 XpadC7).map (constF 1 1 (1 / 2))).flatten,
              driverTrace true (patch_count XpadC7.length 0 1) 2)
        ∧ (Separator.mk (fun bt => bt.map (constF 1 1 (1 / 2))) 0 2 1 false false)._separate
            XpadC7 1
          = Except.ok (((patchList 0 1 1 XpadC7).map (constF 1 1 (1 / 2))).flatten,
              driverTrace false (patch_count XpadC7.length 0 1) 2)) :=
  ⟨by decide, by decide,
    callback_trace_spec (fun bt => bt.map (constF 1 1 (1 / 2))) 0 2 1 false
      (constF 1 1 (1 / 2)) (by decide) (fun _ => rfl) XpadC7 1 (by decide)⟩

/-- C7 counterexample: 5 patches, batch size 2, callback installed.  The
actual trace interleaves a `callback` BEFORE each model call with the
fractions `0, 2/5, 4/5` (patch index over patch count); the trace the
claim describes — a callback AFTER each dispatch carrying `batches
dispatched / total batches`, i.e. `1/3, 2/3, 1` — is a different event
list. -/
theorem callback_fraction_cex :
    Except.map Prod.snd ((mockSep 2 1 0 true (constF 1 1 (1 / 2)))._separate XpadC7 1)
        = Except.ok [Event.callback (0 / 5), Event.modelCall 2,
            Event.callback (2 / 5), Event.modelCall 2,
            Event.callback (4 / 5), Event.modelCall 1]
      ∧ [Event.callback (0 / 5), Event.modelCall 2,
            Event.callback (2 / 5), Event.modelCall 2,
            Event.callback (4 / 5), Event.modelCall 1]
        ≠ [Event.modelCall 2, Event.callback (1 / 3), Event.modelCall 2,
            Event.callback (2 / 3), Event.modelCall 1, Event.callback 1] :=
  ⟨rfl, by decide⟩

/-- C1 (amended): for a nonempty input, a valid configuration
(`cropsize > 2*offset`) with EVEN `roi_size = cropsize - 2*offset` (as in
the shipped configuration `cropsize = 256`, `offset = 64`), and a model
producing `roi_size` frames per patch, both the single-pass and the
dual-pass separation produce a mask of exactly `n_frames` frames.  As
literally stated the claim fails when `roi_size` is odd: see
`tta_odd_roi_broadcast_error`. -/
theorem mask_trim_to_n_frames (sep : Separator) (X : MagT) (f : NormT → MaskT)
    (hb : 0 < sep.batchsize)
    (hf : ∀ bt, sep.predict_mask bt = bt.map f)
    (hlen : ∀ p, (f p).length = sep.cropsize - 2 * sep.offset)
    (hcfg : 2 * sep.offset < sep.cropsize)
    (heven : (sep.cropsize - 2 * sep.offset) % 2 = 0)
    (hn : 0 < X.length) :
    (∃ mtr : MaskT × List Event, sep.separate_mask X = Except.ok mtr
        ∧ mtr.1.length = X.length)
      ∧ ∃ mtr : MaskT × List Event, sep.separate_tta_mask X = Except.ok mtr
        ∧ mtr.1.length = X.length := by
  constructor
  · exact ⟨_, separate_mask_eq sep X f hb hf hcfg hn,
      pass1_mask_length sep X f hlen hcfg⟩
  · refine ⟨_, separate_tta_mask_eq sep X f hb hf hlen hcfg heven hn, ?_⟩
    rw [List.length_zipWith, pass1_mask_length sep X f hlen hcfg,
      pass2_mask_length sep X f hlen hcfg heven]
    exact Nat.min_self _

/-- Witness for C1's amended statement: default configuration, 5-frame
input. -/
theorem mask_trim_to_n_frames_witness :
    (0 : ℕ) < 4
      ∧ ((∃ mtr : MaskT × List Event,
          (mockSep 4 256 64 false (constF 1 128 (1 / 2))).separate_mask X5 = Except.ok mtr
            ∧ mtr.1.length = X5.length)
        ∧ ∃ mtr : MaskT × List Event,
          (mockSep 4 256 64 false (constF 1 128 (1 / 2))).separate_tta_mask X5 = Except.ok mtr
            ∧ mtr.1.length = X5.length) :=
  ⟨by decide,
    mask_trim_to_n_frames (mockSep 4 256 64 false (constF 1 128 (1 / 2))) X5
      (constF 1 128 (1 / 2)) (by decide) (fun _ => rfl) (fun _ => rfl) (by decide)
      (by decide) (by decide)⟩

/-- C1 counterexample: with `cropsize = 3`, `offset = 0` — an odd
`roi_size = 3` — and a 3-frame input, `separate_tta` raises numpy's
broadcasting `ValueError` instead of producing a 3-frame mask: the second
pass is left with only `3 - 3/2 = 2` frames after dropping the
half-window, so the averaging step adds arrays of time lengths 3 and 2. -/
theorem tta_odd_roi_broadcast_error :
    (mockSep 1 3 0 false (constF 1 3 (1 / 2))).separate_tta_mask X3
      = Except.error PyErr.broadcastMismatch := rfl

/-- C4 counterexample: at `n_frames = 10`, `cropsize = 256`, `offset = 64`
separation raises nothing at all — there is no `InvalidConfiguration`
(the code defines no such error, and the patch count is 1, not ≤ 0). -/
theorem degenerate_input_not_rejected :
    (mockSep 4 256 64 false (constF 1 128 (1 / 2))).separate_mask X10
      ≠ Except.error PyErr.invalidConfiguration := by
  rw [show (mockSep 4 256 64 false (constF 1 128 (1 / 2))).separate_mask X10
      = Except.ok (List.replicate 10 [(1 : ℚ) / 2], [Event.modelCall 1]) from rfl]
  simp

/-- C4 (amended): at `n_frames = 10`, `cropsize = 256`, `offset = 64` the
padding grows the input to `256` total frames, the patch count is
`(256 - 2*64) // 128 = 1 > 0`, and separation completes normally after a
single one-patch model call, returning a mask trimmed to 10 frames. -/
theorem degenerate_input_single_patch :
    (mockSep 4 256 64 false (constF 1 128 (1 / 2))).separate_mask X10
        = Except.ok (List.replicate 10 [(1 : ℚ) / 2], [Event.modelCall 1])
      ∧ patch_count 256 64 128 = 1 :=
  ⟨rfl, rfl⟩

/-- C6: with a model that returns the constant mask value `m` for every
patch regardless of input, the dual-pass combiner — pass 2 padded with an
extra `roi_size/2` on both sides and trimmed by `roi_size/2`, combined as
`(mask + mask_tta) * 0.5` — returns a full-length mask equal to `m` at
every position. -/
theorem tta_constant_model (sep : Separator) (X : MagT) (f : NormT → MaskT) (m : ℚ)
    (hb : 0 < sep.batchsize)
    (hf : ∀ bt, sep.predict_mask bt = bt.map f)
    (hlen : ∀ p, (f p).length = sep.cropsize - 2 * sep.offset)
    (hconst : ∀ p, allVal m (f p))
    (hcfg : 2 * sep.offset < sep.cropsize)
    (heven : (sep.cropsize - 2 * sep.offset) % 2 = 0)
    (hn : 0 < X.length) :
    ∃ mtr : MaskT × List Event, sep.separate_tta_mask X = Except.ok mtr
      ∧ mtr.1.length = X.length ∧ allVal m mtr.1 := by
  refine ⟨_, separate_tta_mask_eq sep X f hb hf hlen hcfg heven hn, ?_, ?_⟩
  · rw [List.length_zipWith, pass1_mask_length sep X f hlen hcfg,
      pass2_mask_length sep X f hlen hcfg heven]
    exact Nat.min_self _
  · apply allVal_avg
    · exact allVal_take _ _ _ (allVal_drop _ _ _ (allVal_flatten_map f m _ hconst))
    · exact allVal_take _ _ _ (allVal_drop _ _ _
        (allVal_drop _ _ _ (allVal_flatten_map f m _ hconst)))

/-- Witness for C6 at the spec's concrete scenario: constant `0.7`,
`n_frames = 1000`, `cropsize = 256`, `offset = 64`. -/
theorem tta_constant_model_witness :
    (0 : ℕ) < 4
      ∧ ∃ mtr : MaskT × List Event,
        (mockSep 4 256 64 false (constF 1 128 (7 / 10))).separate_tta_mask X1000
            = Except.ok mtr
          ∧ mtr.1.length = X1000.length ∧ allVal (7 / 10) mtr.1 :=
  ⟨by decide,
    tta_constant_model (mockSep 4 256 64 false (constF 1 128 (7 / 10))) X1000
      (constF 1 128 (7 / 10)) (7 / 10) (by decide) (fun _ => rfl) (fun _ => rfl)
      (fun _ c hc x hx => by
        rw [List.eq_of_mem_replicate hc] at hx
        exact List.eq_of_mem_replicate hx)
      (by decide) (by decide) (by simp [X1000])⟩

theorem foldr_max_zero : ∀ l : List ℚ, (∀ x ∈ l, x = 0) → l.foldr max 0 = 0 := by
  intro l
  induction l with
  | nil => intro _; rfl
  | cons a l ih =>
    intro h
    simp only [List.foldr_cons]
    rw [h a (by simp), ih fun x hx => h x (List.mem_cons_of_mem _ hx)]
    exact max_self 0

/-- C3: the claim does not hold of the code — there is no guard on the
peak-normalising division.  For an all-zero magnitude input (any padding,
in particular the `64`/`182` computed for `n_frames = 10`,
`cropsize = 256`, `offset = 64`) the maximum of the padded array is 0,
`X_mag_pad /= X_mag_pad.max()` computes `0/0`, and EVERY entry of the
normalised input handed to the model is non-finite (NaN). -/
theorem zero_magnitude_normalization_nan (pad_l pad_r : ℕ) (X : MagT)
    (hz : ∀ c ∈ X, ∀ x ∈ c, x = 0) :
    ∀ c ∈ padNorm pad_l pad_r X, ∀ x ∈ c, x = none := by
  have hpad : ∀ c ∈ padT pad_l pad_r X, ∀ x ∈ c, x = 0 := by
    intro c hc x hx
    simp only [padT, List.mem_append] at hc
    rcases hc with (hc | hc) | hc
    · rw [List.eq_of_mem_replicate hc] at hx
      exact List.eq_of_mem_replicate hx
    · exact hz c hc x hx
    · rw [List.eq_of_mem_replicate hc] at hx
      exact List.eq_of_mem_replicate hx
  have hmax : amax (padT pad_l pad_r X) = 0 := by
    unfold amax
    apply foldr_max_zero
    intro y hy
    rcases List.mem_map.mp hy with ⟨c, hc, rfl⟩
    exact foldr_max_zero c (hpad c hc)
  intro c hc x hx
  simp only [padNorm] at hc
  rcases List.mem_map.mp hc with ⟨c0, hc0, rfl⟩
  rcases List.mem_map.mp hx with ⟨x0, _, rfl⟩
  rw [hmax]
  simp [fdiv]

/-- Witness for C3's failing input: 10 all-zero frames with the padding
that `separate` computes for `cropsize = 256`, `offset = 64`. -/
theorem zero_magnitude_normalization_nan_witness :
    (∀ c ∈ List.replicate 10 [(0 : ℚ)], ∀ x ∈ c, x = 0)
      ∧ ∀ c ∈ padNorm 64 182 (List.replicate 10 [(0 : ℚ)]), ∀ x ∈ c, x = none :=
  ⟨fun c hc x hx => by
      rw [List.eq_of_mem_replicate hc] at hx
      exact List.mem_singleton.mp hx,
    zero_magnitude_normalization_nan 64 182 (List.replicate 10 [(0 : ℚ)])
      fun c hc x hx => by
        rw [List.eq_of_mem_replicate hc] at hx
        exact List.mem_singleton.mp hx⟩

/-- C10: neither `separate` nor `separate_tta` mutates any pre-existing
array: every heap cell allocated before the call (in particular the input
spectrogram at `xspec`) holds its original value in the final heap.  The
in-place division targets only the freshly padded copies, so the cell of
`X_mag` (at `s0.next`) still holds `np.abs` of the original input and the
cell of `X_phase` (at `s0.next + 1`) `np.angle` of it after the call; the
reconstruction `y_spec` (at `s0.next + 4`) is computed from the RETAINED
original magnitude and phase, while only the mask's input went through
pad-and-normalise. -/
theorem separation_no_mutation {A : Type} (ops : Hp.ArrayOps A) (xspec a : ℕ)
    (s0 : Hp.NpState A) (hx : xspec < s0.next) (ha : a < s0.next) :
    ((Hp.separate_heap ops xspec s0).2.heap a = s0.heap a
      ∧ (Hp.separate_heap ops xspec s0).2.heap s0.next = ops.absA (s0.heap xspec)
      ∧ (Hp.separate_heap ops xspec s0).2.heap (s0.next + 1) = ops.angleA (s0.heap xspec)
      ∧ (Hp.separate_heap ops xspec s0).2.heap (s0.next + 4)
          = ops.mulMask (ops.inferA (ops.divMax (ops.pad1A (ops.absA (s0.heap xspec)))))
              (ops.absA (s0.heap xspec)) (ops.angleA (s0.heap xspec)))
    ∧ ((Hp.separate_tta_heap ops xspec s0).2.heap a = s0.heap a
      ∧ (Hp.separate_tta_heap ops xspec s0).2.heap s0.next = ops.absA (s0.heap xspec)
      ∧ (Hp.separate_tta_heap ops xspec s0).2.heap (s0.next + 1)
          = ops.angleA (s0.heap xspec)) := by
  have ha0 : a ≠ s0.next := by omega
  have hak : ∀ k : ℕ, a ≠ s0.next + k := fun k => by omega
  have hx0 : xspec ≠ s0.next := by omega
  have hxk : ∀ k : ℕ, xspec ≠ s0.next + k := fun k => by omega
  refine ⟨⟨?_, ?_, ?_, ?_⟩, ?_, ?_, ?_⟩ <;>
    simp [Hp.separate_heap, Hp.separate_tta_heap, Hp.alloc, Hp.store, Nat.add_assoc,
      ha0, hak, hx0, hxk]

/-- Witness for C10 on a one-cell heap over `ℕ`. -/
theorem separation_no_mutation_witness :
    (0 : ℕ) < s0nat.next
      ∧ (((Hp.separate_heap natOps 0 s0nat).2.heap 0 = s0nat.heap 0
        ∧ (Hp.separate_heap natOps 0 s0nat).2.heap s0nat.next = natOps.absA (s0nat.heap 0)
        ∧ (Hp.separate_heap natOps 0 s0nat).2.heap (s0nat.next + 1)
            = natOps.angleA (s0nat.heap 0)
        ∧ (Hp.separate_heap natOps 0 s0nat).2.heap (s0nat.next + 4)
            = natOps.mulMask
                (natOps.inferA (natOps.divMax (natOps.pad1A (natOps.absA (s0nat.heap 0)))))
                (natOps.absA (s0nat.heap 0)) (natOps.angleA (s0nat.heap 0)))
      ∧ ((Hp.separate_tta_heap natOps 0 s0nat).2.heap 0 = s0nat.heap 0
        ∧ (Hp.separate_tta_heap natOps 0 s0nat).2.heap s0nat.next
            = natOps.absA (s0nat.heap 0)
        ∧ (Hp.separate_tta_heap natOps 0 s0nat).2.heap (s0nat.next + 1)
            = natOps.angleA (s0nat.heap 0))) :=
  ⟨by decide, separation_no_mutation natOps 0 0 s0nat (by decide) (by decide)⟩
